import Mathlib

/-!
Shallow embedding of a small e-commerce checkout program (products, cart,
discount strategies, user checkout) together with theorems about its
observable behaviour.

Numeric values (`price`, `shipping_cost`, discount parameters) are embedded
as rationals; `quantity` as an integer (the program accepts negative
quantities). Python object references are embedded, where aliasing matters,
by an explicit store mapping addresses to values (`World` below); the pure
list-level functions are the direct translations of the method bodies.
-/

/-- The variant-specific payload of a product: a plain `Product`, a
`DigitalProduct` (file size and link) or a `PhysicalProduct`
(weight, dimensions, shipping cost). -/
inductive ProductVariant where
  | generic : ProductVariant
  | digital (file_size : ℚ) (product_link : String) : ProductVariant
  | physical (weight : ℚ) (dimensions : List ℚ) (shipping_cost : ℚ) : ProductVariant
deriving DecidableEq, Repr

/-- A product: the base attributes shared by all variants plus the
variant-specific payload. -/
structure Product where
  product_id : ℕ
  name : String
  price : ℚ
  quantity : ℤ
  variant : ProductVariant
deriving DecidableEq, Repr

/-- `Product.update_quantity`: replaces the quantity unconditionally. -/
def Product.update_quantity (p : Product) (new_quantity : ℤ) : Product :=
  { p with quantity := new_quantity }

/-- `Product.update_price`: replaces the price unconditionally. -/
def Product.update_price (p : Product) (new_price : ℚ) : Product :=
  { p with price := new_price }

/-- Whether the product is a `PhysicalProduct` (the `isinstance` test in
`Cart.calculate_total`). -/
def Product.is_physical (p : Product) : Bool :=
  match p.variant with
  | .physical _ _ _ => true
  | _ => false

/-- The `shipping_cost` attribute: present on physical products, `0`
otherwise (the program only reads it behind the `isinstance` guard). -/
def Product.shipping_cost (p : Product) : ℚ :=
  match p.variant with
  | .physical _ _ s => s
  | _ => 0

/-- The two concrete discount strategies: `PercentageDiscount` and
`FixedAmountDiscount`.  The abstract base class `Discount` cannot be
instantiated, so a closed sum of the two concrete variants is the whole
type. -/
inductive Discount where
  | percentage (percentage : ℚ) : Discount
  | fixedAmount (fixed_amount : ℚ) : Discount
deriving DecidableEq, Repr

/-- `apply_discount(total_price, cart_items)` of the two concrete
strategies: `PercentageDiscount` returns `total_price * (1 - percentage/100)`,
`FixedAmountDiscount` returns `max(0, total_price - fixed_amount)`. -/
def Discount.apply_discount : Discount → ℚ → List Product → ℚ
  | .percentage pct, total_price, _ => total_price * (1 - pct / 100)
  | .fixedAmount amt, total_price, _ => max 0 (total_price - amt)

/-- `Cart.add_product`: appends to the end of the item list.  Polymorphic so
the same translation serves the value-level cart (`List Product`) and the
store-level cart (`List` of addresses). -/
def Cart.add_product {α : Type} (cart_items : List α) (product : α) : List α :=
  cart_items ++ [product]

/-- One line-item snapshot as produced by `view_cart`: the dictionary
`{product_id, name, price, quantity}` with exactly those four keys. -/
structure CartItemView where
  product_id : ℕ
  name : String
  price : ℚ
  quantity : ℤ
deriving DecidableEq, Repr

/-- The inner `format_item` of `Cart.view_cart`: projects a cart item to the
four base fields. -/
def Cart.format_item (item : Product) : CartItemView :=
  { product_id := item.product_id, name := item.name,
    price := item.price, quantity := item.quantity }

/-- `Cart.view_cart`: one snapshot per line item, in cart order. -/
def Cart.view_cart (cart_items : List Product) : List CartItemView :=
  cart_items.map Cart.format_item

/-- The summand of the aggregate in `Cart.calculate_total`:
`item.price * item.quantity + (item.shipping_cost if isinstance(item, PhysicalProduct) else 0)`. -/
def Cart.item_term (item : Product) : ℚ :=
  item.price * item.quantity + (if item.is_physical then item.shipping_cost else 0)

/-- The phase-1 aggregate `base_total` of `Cart.calculate_total`. -/
def Cart.base_total (cart_items : List Product) : ℚ :=
  (cart_items.map Cart.item_term).sum

/-- `Cart._apply_discounts(base_total, discounts)`: if the discount argument
is truthy (neither `None` nor the empty list), fold it over the total in
list order; otherwise return the total unchanged. -/
def Cart.apply_discounts (cart_items : List Product) (base_total : ℚ)
    (discounts : Option (List Discount)) : ℚ :=
  match discounts with
  | none => base_total
  | some [] => base_total
  | some ds => ds.foldl (fun t d => d.apply_discount t cart_items) base_total

/-- `Cart.calculate_total(discounts)`: the phase-1 aggregate followed by the
discount fold. -/
def Cart.calculate_total (cart_items : List Product)
    (discounts : Option (List Discount)) : ℚ :=
  Cart.apply_discounts cart_items (Cart.base_total cart_items) discounts

/-- `Cart._find_item_by_id`: the first item whose `product_id` matches, if
any. -/
def Cart.find_item_by_id (cart_items : List Product) (product_id : ℕ) :
    Option Product :=
  cart_items.find? (fun item => item.product_id == product_id)

/-- `Cart.remove_product(product_id)`: look up the first item with the given
id and, when found, remove its first occurrence from the list (`list.remove`);
otherwise leave the cart unchanged. -/
def Cart.remove_product (cart_items : List Product) (product_id : ℕ) :
    List Product :=
  match Cart.find_item_by_id cart_items product_id with
  | some item => cart_items.erase item
  | none => cart_items

/- ### Theorems: totals and discounts -/

/-- **C1.** `calculate_total` with no discounts is the sum over all line
items of `price * quantity`, plus, for each physical line item, its
`shipping_cost` exactly once (independent of quantity); non-physical items
contribute no shipping term. -/
theorem calculate_total_no_discounts_spec (cart_items : List Product) :
    Cart.calculate_total cart_items none =
      (cart_items.map (fun p => p.price * (p.quantity : ℚ))).sum +
        ((cart_items.filter Product.is_physical).map Product.shipping_cost).sum := by
  induction cart_items with
  | nil => simp [Cart.calculate_total, Cart.apply_discounts, Cart.base_total]
  | cons p ps ih =>
      simp only [Cart.calculate_total, Cart.apply_discounts, Cart.base_total] at ih ⊢
      by_cases hp : p.is_physical
      · simp [Cart.item_term, hp, List.filter_cons, ih]
        ring
      · simp [Cart.item_term, hp, List.filter_cons, ih]
        ring

/-- **C2.** `calculate_total` applies a supplied discount list as a left
fold in list order over the phase-1 aggregate; `None` and the empty list
leave the aggregate unchanged; and the fold is order-sensitive: 20 % off
then $30 off maps 100 to 50, the reverse order maps 100 to 56. -/
theorem calculate_total_discount_fold_spec (cart_items : List Product)
    (ds : List Discount) :
    Cart.calculate_total cart_items (some ds) =
        ds.foldl (fun t d => d.apply_discount t cart_items)
          (Cart.calculate_total cart_items none)
      ∧ Cart.calculate_total cart_items none = Cart.base_total cart_items
      ∧ Cart.calculate_total cart_items (some []) =
          Cart.calculate_total cart_items none
      ∧ Cart.apply_discounts [] 100
            (some [Discount.percentage 20, Discount.fixedAmount 30]) = 50
      ∧ Cart.apply_discounts [] 100
            (some [Discount.fixedAmount 30, Discount.percentage 20]) = 56
      ∧ (50 : ℚ) ≠ 56 := by
  refine ⟨?_, rfl, rfl, ?_, ?_, by norm_num⟩
  · cases ds with
    | nil => rfl
    | cons d ds => rfl
  · show Discount.apply_discount (Discount.fixedAmount 30)
      (Discount.apply_discount (Discount.percentage 20) 100 []) [] = 50
    norm_num [Discount.apply_discount]
  · show Discount.apply_discount (Discount.percentage 20)
      (Discount.apply_discount (Discount.fixedAmount 30) 100 []) [] = 56
    norm_num [Discount.apply_discount]

/-- **C5.** `FixedAmountDiscount.apply_discount` returns
`max(0, total_price - fixed_amount)`, never negative, with the two
documented examples. -/
theorem fixed_amount_discount_spec (total_price fixed_amount : ℚ)
    (items : List Product) :
    Discount.apply_discount (.fixedAmount fixed_amount) total_price items =
        max 0 (total_price - fixed_amount)
      ∧ 0 ≤ Discount.apply_discount (.fixedAmount fixed_amount) total_price items
      ∧ Discount.apply_discount (.fixedAmount 50) 10 [] = 0
      ∧ Discount.apply_discount (.fixedAmount 15) 100 [] = 85 := by
  refine ⟨rfl, le_max_left _ _, ?_, ?_⟩ <;> norm_num [Discount.apply_discount]

/- ### Theorems: removal -/

/-- `find_item_by_id` returns the first item whose id matches. -/
lemma find_item_by_id_append_first (product_id : ℕ) (l₁ : List Product)
    (x : Product) (l₂ : List Product)
    (h₁ : ∀ p ∈ l₁, p.product_id ≠ product_id) (hx : x.product_id = product_id) :
    Cart.find_item_by_id (l₁ ++ x :: l₂) product_id = some x := by
  induction l₁ with
  | nil => simp [Cart.find_item_by_id, hx]
  | cons a l ih =>
      have ha : ¬ (a.product_id == product_id) = true := by
        simpa using h₁ a (List.mem_cons_self a l)
      have hih := ih (fun p hp => h₁ p (List.mem_cons_of_mem a hp))
      unfold Cart.find_item_by_id at hih ⊢
      have hstep :
          List.find? (fun item : Product => item.product_id == product_id)
              (a :: (l ++ x :: l₂)) =
            List.find? (fun item : Product => item.product_id == product_id)
              (l ++ x :: l₂) :=
        List.find?_cons_of_neg _ ha
      rw [List.cons_append, hstep]
      exact hih

/-- **C4.** `remove_product` removes exactly the first line item whose
`product_id` matches, keeping all other items (including later duplicates of
the same id) in their relative order; with no matching item it is a no-op. -/
theorem remove_product_spec (product_id : ℕ) :
    (∀ cart_items : List Product,
        (∀ p ∈ cart_items, p.product_id ≠ product_id) →
        Cart.remove_product cart_items product_id = cart_items)
  ∧ (∀ (l₁ : List Product) (x : Product) (l₂ : List Product),
        (∀ p ∈ l₁, p.product_id ≠ product_id) → x.product_id = product_id →
        Cart.remove_product (l₁ ++ x :: l₂) product_id = l₁ ++ l₂) := by
  constructor
  · intro cart_items h
    have hnone : Cart.find_item_by_id cart_items product_id = none := by
      simp only [Cart.find_item_by_id, List.find?_eq_none]
      intro p hp
      simpa using h p hp
    simp [Cart.remove_product, hnone]
  · intro l₁ x l₂ h₁ hx
    have hfind := find_item_by_id_append_first product_id l₁ x l₂ h₁ hx
    have hxl₁ : x ∉ l₁ := fun hmem => h₁ x hmem hx
    simp only [Cart.remove_product, hfind]
    rw [List.erase_append_right _ hxl₁, List.erase_cons_head]

/-- Concrete products used by witnesses. -/
def bookProduct : Product :=
  { product_id := 1, name := "Book", price := 10, quantity := 2, variant := .generic }

def penProduct : Product :=
  { product_id := 2, name := "Pen", price := 2, quantity := 3, variant := .generic }

def pencilProduct : Product :=
  { product_id := 2, name := "Pencil", price := 1, quantity := 1, variant := .generic }

/-- Witness for `remove_product_spec`: a missing id is a no-op, and removal
keeps a later duplicate of the removed id. -/
theorem remove_product_spec_witness :
    Cart.remove_product [bookProduct] 5 = [bookProduct]
  ∧ Cart.remove_product ([bookProduct] ++ penProduct :: [pencilProduct]) 2 =
      [bookProduct] ++ [pencilProduct] := by
  refine ⟨(remove_product_spec 5).1 [bookProduct] ?_,
    (remove_product_spec 2).2 [bookProduct] penProduct [pencilProduct] ?_ rfl⟩
  · intro p hp
    rw [List.mem_singleton] at hp
    subst hp
    decide
  · intro p hp
    rw [List.mem_singleton] at hp
    subst hp
    decide

/- ### Theorems: percentage discount -/

/-- **C6, counterexample.** The claim asserts that for every `total_price`
a negative percentage yields a result larger than the input total; at
`total_price = 0` with percentage `-10` the result is `0`, not larger. -/
theorem percentage_discount_claim_cex :
    Discount.apply_discount (.percentage (-10)) 0 [] = 0
  ∧ ¬ (0 : ℚ) < Discount.apply_discount (.percentage (-10)) 0 [] := by
  constructor <;> norm_num [Discount.apply_discount]

/-- **C6, amended.** `PercentageDiscount.apply_discount` returns
`total_price * (1 - percentage/100)` with no clamping: a percentage above
100 yields a negative result on a positive total, a negative percentage
yields a result larger than a positive input total, and 10 % off 100 is
exactly 90. -/
theorem percentage_discount_spec_amended (total_price percentage : ℚ)
    (items : List Product) :
    Discount.apply_discount (.percentage percentage) total_price items =
        total_price * (1 - percentage / 100)
  ∧ (100 < percentage → 0 < total_price →
        Discount.apply_discount (.percentage percentage) total_price items < 0)
  ∧ (percentage < 0 → 0 < total_price →
        total_price <
          Discount.apply_discount (.percentage percentage) total_price items)
  ∧ Discount.apply_discount (.percentage 10) 100 [] = 90 := by
  refine ⟨rfl, ?_, ?_, by norm_num [Discount.apply_discount]⟩
  · intro hp ht
    have h1 : 1 - percentage / 100 < 0 := by linarith
    simpa [Discount.apply_discount] using mul_neg_of_pos_of_neg ht h1
  · intro hp ht
    have h1 : 1 < 1 - percentage / 100 := by linarith
    have := mul_lt_mul_of_pos_left h1 ht
    simpa [Discount.apply_discount] using this

/-- Witness for `percentage_discount_spec_amended`: a 200 % discount sends
100 below zero, and a −10 % discount sends 100 above 100. -/
theorem percentage_discount_spec_amended_witness :
    Discount.apply_discount (.percentage 200) 100 [] < 0
  ∧ (100 : ℚ) < Discount.apply_discount (.percentage (-10)) 100 [] :=
  ⟨(percentage_discount_spec_amended 100 200 []).2.1 (by norm_num) (by norm_num),
   (percentage_discount_spec_amended 100 (-10) []).2.2.1 (by norm_num) (by norm_num)⟩

/- ### Theorems: view_cart -/

/-- Folding `add_product` over a list of products appends them in order. -/
lemma foldl_add_product {α : Type} (ps acc : List α) :
    ps.foldl Cart.add_product acc = acc ++ ps := by
  induction ps generalizing acc with
  | nil => simp
  | cons p ps ih => simp [Cart.add_product, ih]

/-- **C7.** After any sequence of `add_product` calls, `view_cart` returns
one snapshot per line item in insertion order; each snapshot is exactly the
four base fields of the item, and the projection is unchanged by the
product's variant payload (digital/physical fields never appear). -/
theorem view_cart_spec (ps : List Product) :
    Cart.view_cart (ps.foldl Cart.add_product []) = ps.map Cart.format_item
  ∧ (∀ p : Product, Cart.format_item p =
      { product_id := p.product_id, name := p.name,
        price := p.price, quantity := p.quantity })
  ∧ (∀ (p : Product) (v : ProductVariant),
      Cart.format_item { p with variant := v } = Cart.format_item p) := by
  refine ⟨?_, fun p => rfl, fun p v => rfl⟩
  rw [foldl_add_product]
  simp [Cart.view_cart]

/- ### Store model: object references

Python objects live on a heap and carts/users hold references.  `World`
makes that explicit: products and carts are stored at natural-number
addresses; a cart is the list of addresses of its items; `nextCart` is the
next fresh cart address. -/

/-- Pointwise store update (assignment through a reference). -/
def setFn {α : Type} (f : ℕ → α) (a : ℕ) (v : α) : ℕ → α :=
  fun x => if x = a then v else f x

/-- The object store: products and carts addressed by naturals. -/
structure World where
  prods : ℕ → Product
  carts : ℕ → List ℕ
  nextCart : ℕ

/-- `Product.update_price` performed through a reference into the store. -/
def Product.update_price_st (w : World) (a : ℕ) (new_price : ℚ) : World :=
  { w with prods := setFn w.prods a ((w.prods a).update_price new_price) }

/-- `Product.update_quantity` performed through a reference into the store. -/
def Product.update_quantity_st (w : World) (a : ℕ) (new_quantity : ℤ) : World :=
  { w with prods := setFn w.prods a ((w.prods a).update_quantity new_quantity) }

/-- The products a cart currently holds: its stored addresses dereferenced. -/
def Cart.cart_items (w : World) (c : ℕ) : List Product :=
  (w.carts c).map w.prods

/-- `Cart.add_product` through a cart reference: append the product's
address. -/
def Cart.add_product_st (w : World) (c : ℕ) (a : ℕ) : World :=
  { w with carts := setFn w.carts c (Cart.add_product (w.carts c) a) }

/-- `Cart.view_cart` through a cart reference. -/
def Cart.view_cart_st (w : World) (c : ℕ) : List CartItemView :=
  Cart.view_cart (Cart.cart_items w c)

/-- `Cart.calculate_total` through a cart reference.  The method body
assigns to no attribute of any object, so the resulting store is the input
store. -/
def Cart.calculate_total_st (w : World) (c : ℕ)
    (discounts : Option (List Discount)) : ℚ × World :=
  (Cart.calculate_total (Cart.cart_items w c) discounts, w)

/-- A user: identity, a reference to the owned cart, and the optional
default discount list. -/
structure UserSt where
  user_id : ℕ
  name : String
  cartRef : ℕ
  discounts : Option (List Discount)

/-- `User.checkout()`: `temp = self.cart.calculate_total(self.discounts)`,
then `self.cart = Cart()` (a freshly allocated empty cart), then
`return temp`. -/
def User.checkout (w : World) (u : UserSt) : ℚ × World × UserSt :=
  let temp := (Cart.calculate_total_st w u.cartRef u.discounts).1
  let w2 : World :=
    { prods := w.prods, carts := setFn w.carts w.nextCart [],
      nextCart := w.nextCart + 1 }
  (temp, w2, { u with cartRef := w.nextCart })

/- ### Theorems: checkout and frame conditions -/

/-- **C3.** `checkout` returns exactly `calculate_total` of the user's cart
at call time under the user's own discounts; afterwards the user's cart
field refers to a brand-new empty cart, while the pre-checkout cart still
holds the old items and does not see later additions to the new cart. -/
theorem checkout_spec (w : World) (u : UserSt) (hwf : u.cartRef < w.nextCart) :
    (User.checkout w u).1 =
        Cart.calculate_total (Cart.cart_items w u.cartRef) u.discounts
  ∧ (User.checkout w u).2.2.cartRef ≠ u.cartRef
  ∧ Cart.view_cart_st (User.checkout w u).2.1 (User.checkout w u).2.2.cartRef = []
  ∧ Cart.cart_items (User.checkout w u).2.1 u.cartRef = Cart.cart_items w u.cartRef
  ∧ ∀ a : ℕ, Cart.cart_items
        (Cart.add_product_st (User.checkout w u).2.1
          (User.checkout w u).2.2.cartRef a) u.cartRef =
      Cart.cart_items w u.cartRef := by
  have hne : u.cartRef ≠ w.nextCart := Nat.ne_of_lt hwf
  refine ⟨rfl, fun h => hne h.symm, ?_, ?_, ?_⟩
  · simp [User.checkout, Cart.view_cart_st, Cart.cart_items, Cart.view_cart, setFn]
  · simp [User.checkout, Cart.cart_items, setFn, hne]
  · intro a
    simp [User.checkout, Cart.add_product_st, Cart.cart_items, setFn, hne]

/-- A concrete product, store and user for the witnesses. -/
def sampleProduct : Product :=
  { product_id := 7, name := "Sample", price := 3, quantity := 2, variant := .generic }

def sampleWorld : World :=
  { prods := fun _ => sampleProduct, carts := fun _ => [0], nextCart := 1 }

def sampleUser : UserSt :=
  { user_id := 1, name := "Alice", cartRef := 0, discounts := none }

/-- Witness for `checkout_spec` on a one-item cart. -/
theorem checkout_spec_witness :
    (User.checkout sampleWorld sampleUser).1 =
        Cart.calculate_total (Cart.cart_items sampleWorld sampleUser.cartRef)
          sampleUser.discounts
  ∧ Cart.view_cart_st (User.checkout sampleWorld sampleUser).2.1
        (User.checkout sampleWorld sampleUser).2.2.cartRef = []
  ∧ Cart.cart_items (User.checkout sampleWorld sampleUser).2.1
        sampleUser.cartRef =
      Cart.cart_items sampleWorld sampleUser.cartRef := by
  have h := checkout_spec sampleWorld sampleUser (by decide)
  exact ⟨h.1, h.2.2.1, h.2.2.2.1⟩

/-- **C9.** `calculate_total` leaves the store — in particular the cart's
item sequence, its order and every field of every item — unchanged; the
discount fold only transforms the scalar total. -/
theorem calculate_total_frame (w : World) (c : ℕ) (ds : List Discount) :
    (Cart.calculate_total_st w c (some ds)).2 = w
  ∧ Cart.cart_items (Cart.calculate_total_st w c (some ds)).2 c =
      Cart.cart_items w c
  ∧ Cart.view_cart_st (Cart.calculate_total_st w c (some ds)).2 c =
      Cart.view_cart_st w c :=
  ⟨rfl, rfl, rfl⟩

/- ### Theorems: mutation visibility through the cart -/

/-- Writing the same address twice keeps only the second write. -/
lemma setFn_setFn_same {α : Type} (f : ℕ → α) (a : ℕ) (v v2 : α) :
    setFn (setFn f a v) a v2 = setFn f a v2 := by
  funext x
  by_cases hx : x = a <;> simp [setFn, hx]

/-- Updating one stored product shifts the aggregate by its term change,
once per occurrence of its address in the cart. -/
lemma base_total_map_setFn (f : ℕ → Product) (a : ℕ) (p : Product)
    (l : List ℕ) :
    Cart.base_total (l.map (setFn f a p)) =
      Cart.base_total (l.map f) +
        (l.count a : ℚ) * (Cart.item_term p - Cart.item_term (f a)) := by
  induction l with
  | nil => simp [Cart.base_total]
  | cons x xs ih =>
      by_cases hx : x = a
      · subst hx
        simp only [List.map_cons, Cart.base_total, List.sum_cons] at ih ⊢
        rw [List.count_cons_self]
        simp only [setFn, if_pos rfl]
        push_cast
        rw [ih]
        ring
      · simp only [List.map_cons, Cart.base_total, List.sum_cons] at ih ⊢
        rw [List.count_cons_of_ne (Ne.symm hx)]
        simp only [setFn, if_neg hx]
        rw [ih]
        ring

/-- **C8.** The cart holds products by reference: after `update_price` and
`update_quantity` on a product in the cart, the product's snapshot in every
`view_cart` position holding that reference shows the new values, and the
no-discount total shifts by the item-term change once per occurrence. -/
theorem product_mutation_visible (w wm : World) (c a : ℕ) (new_price : ℚ)
    (new_quantity : ℤ) (ha : a ∈ w.carts c)
    (hwm : wm = Product.update_quantity_st
        (Product.update_price_st w a new_price) a new_quantity) :
    (wm.prods a).price = new_price
  ∧ (wm.prods a).quantity = new_quantity
  ∧ (wm.prods a).product_id = (w.prods a).product_id
  ∧ Cart.format_item (wm.prods a) ∈ Cart.view_cart_st wm c
  ∧ (∀ i : ℕ, (w.carts c)[i]? = some a →
        (Cart.view_cart_st wm c)[i]? = some
          { product_id := (w.prods a).product_id, name := (w.prods a).name,
            price := new_price, quantity := new_quantity })
  ∧ Cart.calculate_total (Cart.cart_items wm c) none =
      Cart.calculate_total (Cart.cart_items w c) none +
        ((w.carts c).count a : ℚ) *
          (Cart.item_term (wm.prods a) - Cart.item_term (w.prods a)) := by
  have hprods : wm.prods =
      setFn w.prods a
        { w.prods a with price := new_price, quantity := new_quantity } := by
    subst hwm
    simp only [Product.update_quantity_st, Product.update_price_st]
    rw [setFn_setFn_same]
    simp [setFn, Product.update_price, Product.update_quantity]
  have hcarts : wm.carts = w.carts := by
    subst hwm
    rfl
  have hpa : wm.prods a =
      { w.prods a with price := new_price, quantity := new_quantity } := by
    rw [hprods]
    simp [setFn]
  refine ⟨by rw [hpa], by rw [hpa], by rw [hpa], ?_, ?_, ?_⟩
  · unfold Cart.view_cart_st Cart.view_cart Cart.cart_items
    rw [hcarts]
    exact List.mem_map_of_mem _ (List.mem_map_of_mem _ ha)
  · intro i hi
    unfold Cart.view_cart_st Cart.view_cart Cart.cart_items
    rw [hcarts]
    simp only [List.getElem?_map, hi]
    show some (Cart.format_item (wm.prods a)) = _
    rw [hpa]
    rfl
  · show Cart.base_total (Cart.cart_items wm c) =
      Cart.base_total (Cart.cart_items w c) + _
    unfold Cart.cart_items
    rw [hcarts, hprods, base_total_map_setFn]
    simp [setFn]

/-- A store whose only cart holds the same product reference twice. -/
def twoRefWorld : World :=
  { prods := fun _ => sampleProduct, carts := fun _ => [0, 0], nextCart := 1 }

/-- Witness for `product_mutation_visible`: updating the shared product is
seen at both cart positions and in the total. -/
theorem product_mutation_visible_witness :
    ((Product.update_quantity_st (Product.update_price_st twoRefWorld 0 5) 0 4).prods 0).price = 5
  ∧ ((Product.update_quantity_st (Product.update_price_st twoRefWorld 0 5) 0 4).prods 0).quantity = 4
  ∧ Cart.calculate_total
        (Cart.cart_items
          (Product.update_quantity_st (Product.update_price_st twoRefWorld 0 5) 0 4) 0)
        none =
      Cart.calculate_total (Cart.cart_items twoRefWorld 0) none +
        ((twoRefWorld.carts 0).count 0 : ℚ) *
          (Cart.item_term
              ((Product.update_quantity_st
                  (Product.update_price_st twoRefWorld 0 5) 0 4).prods 0) -
            Cart.item_term (twoRefWorld.prods 0)) := by
  have h := product_mutation_visible twoRefWorld
    (Product.update_quantity_st (Product.update_price_st twoRefWorld 0 5) 0 4)
    0 0 5 4 (by decide) rfl
  exact ⟨h.1, h.2.1, h.2.2.2.2.2⟩

/- ### Theorems: empty-cart totals and repeated checkout -/

/-- **C10, counterexample.** On an empty cart a `FixedAmountDiscount` with
negative `fixed_amount` yields `max(0, 0 - fixed_amount) > 0`: with
`fixed_amount = -5` the total is `5`, not `0`. -/
theorem empty_cart_total_claim_cex :
    Cart.calculate_total [] (some [Discount.fixedAmount (-5)]) = 5
  ∧ (5 : ℚ) ≠ 0 := by
  constructor
  · show Discount.apply_discount (Discount.fixedAmount (-5))
      (Cart.base_total []) [] = 5
    norm_num [Discount.apply_discount, Cart.base_total]
  · norm_num

/-- The discount parameter is in the range the spec expects: any
percentage, or a nonnegative fixed amount. -/
def Discount.nonneg_fixed : Discount → Prop
  | .percentage _ => True
  | .fixedAmount amt => 0 ≤ amt

/-- Both concrete discounts map a zero total to zero when the fixed amount
is nonnegative. -/
lemma apply_discount_zero (d : Discount) (items : List Product)
    (hd : d.nonneg_fixed) : d.apply_discount 0 items = 0 := by
  cases d with
  | percentage pct => simp [Discount.apply_discount]
  | fixedAmount amt =>
      simp only [Discount.nonneg_fixed] at hd
      simp only [Discount.apply_discount, zero_sub, max_eq_left_iff]
      linarith

/-- Folding such discounts over a zero total keeps it zero. -/
lemma foldl_discounts_zero (items : List Product) (ds : List Discount)
    (hds : ∀ d ∈ ds, Discount.nonneg_fixed d) :
    ds.foldl (fun t d => d.apply_discount t items) 0 = 0 := by
  induction ds with
  | nil => rfl
  | cons d ds ih =>
      simp only [List.foldl_cons,
        apply_discount_zero d items (hds d (List.mem_cons_self d ds))]
      exact ih (fun e he => hds e (List.mem_cons_of_mem d he))

/-- An empty cart with in-range discounts totals zero. -/
lemma calculate_total_nil_eq_zero (ds : List Discount)
    (hds : ∀ d ∈ ds, Discount.nonneg_fixed d) :
    Cart.calculate_total [] (some ds) = 0 := by
  cases ds with
  | nil => rfl
  | cons d ds =>
      show (d :: ds).foldl (fun t e => e.apply_discount t []) (Cart.base_total []) = 0
      have h0 : Cart.base_total [] = 0 := rfl
      rw [h0]
      exact foldl_discounts_zero [] (d :: ds) hds

/-- **C10, amended.** On an empty cart `calculate_total` returns `0` for
`None` and for every discount list whose `FixedAmountDiscount` members all
carry a nonnegative `fixed_amount` (a negative fixed amount inflates an
empty cart, see the counterexample); consequently, for a user whose default
discounts are `None` or such a list, a second `checkout` immediately after
a checkout returns `0`. -/
theorem empty_cart_total_amended (ds : List Discount)
    (hds : ∀ d ∈ ds, Discount.nonneg_fixed d) (w : World) (u : UserSt)
    (hu : u.discounts = none ∨ u.discounts = some ds) :
    Cart.calculate_total [] none = 0
  ∧ Cart.calculate_total [] (some ds) = 0
  ∧ (User.checkout (User.checkout w u).2.1 (User.checkout w u).2.2).1 = 0 := by
  refine ⟨rfl, calculate_total_nil_eq_zero ds hds, ?_⟩
  have hempty : Cart.cart_items (User.checkout w u).2.1
      (User.checkout w u).2.2.cartRef = [] := by
    simp [User.checkout, Cart.cart_items, setFn]
  show Cart.calculate_total
      (Cart.cart_items (User.checkout w u).2.1 (User.checkout w u).2.2.cartRef)
      (User.checkout w u).2.2.discounts = 0
  rw [hempty]
  have hdisc : (User.checkout w u).2.2.discounts = u.discounts := rfl
  rw [hdisc]
  rcases hu with h | h
  · rw [h]
    rfl
  · rw [h]
    exact calculate_total_nil_eq_zero ds hds

/-- Witness for `empty_cart_total_amended`: with a 10 % default discount a
second immediate checkout returns 0. -/
theorem empty_cart_total_amended_witness :
    Cart.calculate_total [] (some [Discount.percentage 10]) = 0
  ∧ (User.checkout
        (User.checkout sampleWorld
          { user_id := 1, name := "Alice", cartRef := 0,
            discounts := some [Discount.percentage 10] }).2.1
        (User.checkout sampleWorld
          { user_id := 1, name := "Alice", cartRef := 0,
            discounts := some [Discount.percentage 10] }).2.2).1 = 0 := by
  have h := empty_cart_total_amended [Discount.percentage 10]
    (by
      intro d hd
      rw [List.mem_singleton] at hd
      subst hd
      trivial)
    sampleWorld
    { user_id := 1, name := "Alice", cartRef := 0,
      discounts := some [Discount.percentage 10] }
    (Or.inr rfl)
  exact ⟨h.2.1, h.2.2⟩
